import Mathlib

/-!
Verification development for a Go configuration library (`package config`).

The library stores a parsed JSON/YAML document as a dynamically typed tree
(`interface{}` holding `bool`, `float64`, `int`, `string`, `[]interface{}`,
`map[string]interface{}`, or — before normalization — `map[interface{}]interface{}`),
resolves dotted paths into it, coerces resolved nodes to requested types, and
layers an environment-prefix fallback on top.

Shallow embedding conventions:
* Go's `interface{}` values become the inductive `Value` below.
* Go `float64` payloads are modelled as exact rationals (`Rat`); the places
  where the Go code formats a float with `fmt.Sprint` (`%v`, i.e. shortest
  `%g` rendering) are modelled by the exact decimal rendering of the rational,
  which agrees with Go on the plain-decimal regime exercised here.
* Go maps become association lists (first binding wins on lookup, in-place
  replacement on write); Go's unspecified map iteration order is modelled as
  list order.
* A Go function returning `(v, error)` becomes `GoRes`: `.ret v none` on
  success, `.ret zero (some e)` on failure, and `.panicked msg` for a runtime
  fault (the Go code can index a slice with a negative index).
-/

/-- Model of a Go `interface{}` value as stored in a configuration tree.
`vMapI` is `map[interface{}]interface{}` (raw YAML parser output); all other
constructors are the dynamic types the library manipulates.  `vNull` is the
`nil` interface. -/
inductive Value where
  | vNull
  | vBool (b : Bool)
  | vFloat (q : Rat)
  | vInt (n : Int)
  | vStr (s : String)
  | vList (items : List Value)
  | vMap (entries : List (String × Value))
  | vMapI (entries : List (Value × Value))

/-- The error values the library produces (`fmt.Errorf` calls), as a structured
type: the payload of each constructor is the data interpolated into the Go
format string. -/
inductive Err where
  | invalidPath (path : String)
  | notFound (full : String) (found : String) (missing : String)
  | typeMismatch (expected : String) (got : String)
  | unsupportedKey (k : Value)
  | unsupportedValue (v : Value)
  | unsupportedItem (v : Value)
  | unsupportedType (v : Value)

/-- Result of a Go call returning `(v, error)`: `.ret v e` is a normal return
(value and error), `.panicked` is a runtime panic unwinding through the call. -/
inductive GoRes (α : Type) where
  | ret (v : α) (e : Option Err)
  | panicked (msg : String)

/-- Go `%T` on the dynamic value (its Go type name). -/
def goTypeName : Value → String
  | .vNull => "<nil>"
  | .vBool _ => "bool"
  | .vFloat _ => "float64"
  | .vInt _ => "int"
  | .vStr _ => "string"
  | .vList _ => "[]interface {}"
  | .vMap _ => "map[string]interface {}"
  | .vMapI _ => "map[interface {}]interface {}"

/-- Optional leading sign, as consumed by Go's `strconv` parsers. -/
def goSign : List Char → Bool × List Char
  | '-' :: rest => (true, rest)
  | '+' :: rest => (false, rest)
  | cs => (false, cs)

/-- Accumulate base-10 digits; fails on the first non-digit character. -/
def digitsValAux : Nat → List Char → Option Nat
  | acc, [] => some acc
  | acc, c :: rest =>
    if c.isDigit then digitsValAux (acc * 10 + (c.toNat - 48)) rest else none

/-- Value of a nonempty all-digit string; `none` if empty or not all digits. -/
def digitsVal : List Char → Option Nat
  | [] => none
  | cs => digitsValAux 0 cs

/-- Model of Go `strconv.ParseInt(s, 10, 0)` (bit size 0 = `int` = 64 bits):
optional sign, nonempty base-10 digits, value within the `int64` range;
`none` models a non-nil `error` return. -/
def goParseInt (s : String) : Option Int :=
  let (neg, ds) := goSign s.toList
  match digitsVal ds with
  | none => none
  | some n =>
    let v : Int := if neg then -(n : Int) else (n : Int)
    if v < -(2 ^ 63 : Int) ∨ (2 ^ 63 : Int) - 1 < v then none else some v

/-- Model of Go `strconv.ParseBool`: the exact literal set it accepts. -/
def goParseBool (s : String) : Option Bool :=
  if s ∈ ["1", "t", "T", "TRUE", "true", "True"] then some true
  else if s ∈ ["0", "f", "F", "FALSE", "false", "False"] then some false
  else none

/-- Model of Go `strconv.ParseFloat(s, 64)` restricted to finite decimal forms
(optional sign, digits with an optional single `.`, optional `e`/`E` exponent);
the `Inf`/`NaN`/hexadecimal literals accepted by Go are outside the modelled
value space (they denote non-rational floats). -/
def goParseFloat (s : String) : Option Rat :=
  let signed : Bool × List Char := goSign s.toList
  let neg := signed.1
  let mantSplit : List Char × List Char := signed.2.span (·.isDigit)
  let ds := mantSplit.1
  let fracSplit : List Char × List Char :=
    match mantSplit.2 with
    | '.' :: r => r.span (·.isDigit)
    | cs2 => ([], cs2)
  let fs := fracSplit.1
  let cs3 := fracSplit.2
  if ds.isEmpty && fs.isEmpty then none
  else
    let mant : Rat :=
      ((digitsValAux 0 ds).getD 0 : Rat) +
        ((digitsValAux 0 fs).getD 0 : Rat) / ((10 : Rat) ^ fs.length)
    let expPart : Option Int :=
      match cs3 with
      | [] => some 0
      | e :: r =>
        if e = 'e' ∨ e = 'E' then
          let (eneg, r1) := goSign r
          match digitsVal r1 with
          | some en => some (if eneg then -(en : Int) else (en : Int))
          | none => none
        else none
    match expPart with
    | none => none
    | some ex => some ((if neg then -mant else mant) * (10 : Rat) ^ ex)

/-- Go conversion `int(f)` on a float: truncation toward zero. -/
def goTrunc (q : Rat) : Int :=
  (if q.num < 0 then -1 else 1) * ((q.num.natAbs / q.den : Nat) : Int)

/-- Go `fmt.Sprint` on an `int`: decimal rendering. -/
def goSprintInt (i : Int) : String :=
  (if i < 0 then "-" else "") ++ Nat.repr i.natAbs

/-- Go `fmt.Sprint` on a `bool`. -/
def goSprintBool (b : Bool) : String :=
  if b then "true" else "false"

/-- Decimal digits of the fraction `num / den` (with `num < den`), produced by
long division, fuel-bounded (a `float64`'s exact expansion has at most 1074
fractional digits). -/
def fracDigits : Nat → Nat → Nat → String
  | 0, _, _ => ""
  | fuel + 1, num, den =>
    if num = 0 then ""
    else Nat.repr (num * 10 / den) ++ fracDigits fuel (num * 10 % den) den

/-- Rendering of the nonnegative rational `q` as an exact plain decimal:
integer part, then the long-division digits of the remainder. -/
def sprintFloatAbs (q : Rat) : String :=
  let n := q.num.natAbs
  let ip := n / q.den
  let fs := fracDigits 1200 (n % q.den) q.den
  if fs = "" then Nat.repr ip else Nat.repr ip ++ "." ++ fs

/-- Model of Go `fmt.Sprint` on a `float64` (`%v`, shortest `%g` form): the
exact decimal rendering of the modelled rational, with no trailing `.0` for
whole values — `42.0` prints as `"42"`, `42.5` as `"42.5"`.  The exponent
regime of `%g` (magnitude ≥ 1e21 or < 1e-4) is outside the modelled range. -/
def goSprintFloat (q : Rat) : String :=
  if q < 0 then "-" ++ sprintFloatAbs (-q) else sprintFloatAbs q

/-- Model of Go `strings.Split(s, ".")`: the separator is the single character
`.`, so the split is over the character list. -/
def splitDotsAux : List Char → List Char → List String
  | [], acc => [String.mk acc.reverse]
  | c :: rest, acc =>
    if c = '.' then String.mk acc.reverse :: splitDotsAux rest []
    else splitDotsAux rest (c :: acc)

/-- `strings.Split(path, ".")`. -/
def splitDots (path : String) : List String :=
  splitDotsAux path.toList []

/-- The shared failure return of Go `get` (source `part_000:163-165`):
`Invalid path %q (found: %q; not found: %q)` built from the full split path,
the segments consumed so far, and the unconsumed suffix. -/
def notFoundAt (parts : List String) (pos : Nat) : GoRes Value :=
  .ret .vNull (some (.notFound (String.intercalate "." parts)
    (String.intercalate "." (parts.take pos))
    (String.intercalate "." (parts.drop pos))))

/-- Go `get(cfg, parts, pos)` (source `part_000:149-166`); named `getAt` here
because a bare `get` collides with `MonadState.get`.  Descend one segment at a
time.  On a list node the segment is fed to `ParseInt` and the parsed index is
checked only against the upper bound `int(idx) < len(cfg)` before `cfg[idx]`
is evaluated, so a negative parsed index reaches the slice indexing and
panics at runtime. -/
def getAt (cfg : Value) (parts : List String) (pos : Nat) : GoRes Value :=
  if _h : parts.length ≤ pos then .ret cfg none
  else
    match cfg with
    | .vList l =>
      match goParseInt (parts.getD pos "") with
      | some idx =>
        if idx < (l.length : Int) then
          if 0 ≤ idx then getAt (l.getD idx.toNat .vNull) parts (pos + 1)
          else .panicked "runtime error: index out of range"
        else notFoundAt parts pos
      | none => notFoundAt parts pos
    | .vMap entries =>
      match List.lookup (parts.getD pos "") entries with
      | some v => getAt v parts (pos + 1)
      | none => notFoundAt parts pos
    | _ => notFoundAt parts pos
termination_by parts.length - pos
decreasing_by all_goals omega

/-- The `for k, v := range parts` loop of Go `Get` (source `part_000:136-144`):
iterate over the segments of the original split with their indices (`k` is the
counter), carrying the current `parts` slice; an empty segment at index 0
replaces `parts` by `parts[1:]`, an empty segment at any later index returns
the `Invalid path` error. -/
def rangeCheck (path : String) : List String → Nat → List String → Except Err (List String)
  | [], _, parts => .ok parts
  | v :: rest, k, parts =>
    if v = "" then
      if k = 0 then rangeCheck path rest (k + 1) (parts.drop 1)
      else .error (.invalidPath path)
    else rangeCheck path rest (k + 1) parts

/-- The split-and-validate prefix of Go `Get`: split on `.` and run the range
loop over the result. -/
def goGetParts (path : String) : Except Err (List String) :=
  let parts := splitDots path
  rangeCheck path parts 0 parts

/-- Go package-level `Get(cfg, path)` (source `part_000:134-146`). -/
def Get (cfg : Value) (path : String) : GoRes Value :=
  match goGetParts path with
  | .error e => .ret .vNull (some e)
  | .ok parts => getAt cfg parts 0

/-- Structural reformulation of `getAt` used for evaluation and induction: the
fourth argument is the suffix `parts.drop pos` of segments still to consume;
`get_eq_getFrom` proves it equal to `getAt`. -/
def getFrom (parts : List String) : Nat → Value → List String → GoRes Value
  | _, cfg, [] => .ret cfg none
  | pos, cfg, seg :: rest =>
    match cfg with
    | .vList l =>
      match goParseInt seg with
      | some idx =>
        if idx < (l.length : Int) then
          if 0 ≤ idx then getFrom parts (pos + 1) (l.getD idx.toNat .vNull) rest
          else .panicked "runtime error: index out of range"
        else notFoundAt parts pos
      | none => notFoundAt parts pos
    | .vMap entries =>
      match List.lookup seg entries with
      | some v => getFrom parts (pos + 1) v rest
      | none => notFoundAt parts pos
    | _ => notFoundAt parts pos

lemma get_eq_getFrom_aux (parts : List String) (fuel : Nat) :
    ∀ pos cfg, parts.length - pos ≤ fuel →
      getAt cfg parts pos = getFrom parts pos cfg (parts.drop pos) := by
  induction fuel with
  | zero =>
    intro pos cfg h
    have hle : parts.length ≤ pos := by omega
    rw [List.drop_eq_nil_of_le hle]
    show getAt cfg parts pos = .ret cfg none
    unfold getAt
    rw [dif_pos hle]
  | succ n ih =>
    intro pos cfg h
    by_cases hle : parts.length ≤ pos
    · rw [List.drop_eq_nil_of_le hle]
      show getAt cfg parts pos = .ret cfg none
      unfold getAt
      rw [dif_pos hle]
    · have hlt : pos < parts.length := by omega
      have hseg : parts.getD pos "" = parts[pos] := List.getD_eq_getElem parts "" hlt
      rw [List.drop_eq_getElem_cons hlt]
      unfold getAt
      rw [dif_neg hle, hseg]
      cases cfg with
      | vList l =>
        show (match goParseInt parts[pos] with
              | some idx =>
                if idx < (l.length : Int) then
                  if 0 ≤ idx then getAt (l.getD idx.toNat .vNull) parts (pos + 1)
                  else .panicked "runtime error: index out of range"
                else notFoundAt parts pos
              | none => notFoundAt parts pos) =
             (match goParseInt parts[pos] with
              | some idx =>
                if idx < (l.length : Int) then
                  if 0 ≤ idx then
                    getFrom parts (pos + 1) (l.getD idx.toNat .vNull) (parts.drop (pos + 1))
                  else .panicked "runtime error: index out of range"
                else notFoundAt parts pos
              | none => notFoundAt parts pos)
        cases goParseInt parts[pos] with
        | none => rfl
        | some idx =>
          by_cases hub : idx < (l.length : Int)
          · by_cases hlb : 0 ≤ idx
            · simp only [if_pos hub, if_pos hlb]
              exact ih (pos + 1) _ (by omega)
            · simp only [if_pos hub, if_neg hlb]
          · simp only [if_neg hub]
      | vMap entries =>
        show (match List.lookup parts[pos] entries with
              | some v => getAt v parts (pos + 1)
              | none => notFoundAt parts pos) =
             (match List.lookup parts[pos] entries with
              | some v => getFrom parts (pos + 1) v (parts.drop (pos + 1))
              | none => notFoundAt parts pos)
        cases List.lookup parts[pos] entries with
        | none => rfl
        | some v => exact ih (pos + 1) v (by omega)
      | vNull => rfl
      | vBool b => rfl
      | vFloat q => rfl
      | vInt i => rfl
      | vStr s => rfl
      | vMapI m => rfl

lemma get_eq_getFrom (cfg : Value) (parts : List String) (pos : Nat) :
    getAt cfg parts pos = getFrom parts pos cfg (parts.drop pos) :=
  get_eq_getFrom_aux parts (parts.length - pos) pos cfg le_rfl

/-- Evaluation form of `Get`: fully structural, hence kernel-reducible. -/
lemma Get_eval (cfg : Value) (path : String) :
    Get cfg path =
      (match goGetParts path with
       | .error e => .ret .vNull (some e)
       | .ok parts => getFrom parts 0 cfg parts) := by
  rw [Get]
  cases goGetParts path with
  | error e => rfl
  | ok parts => simp only [get_eq_getFrom, List.drop_zero]

/-- Alias so that accessor signatures can mention the string type while the
accessor itself is named `Config.String` (source method names are kept). -/
abbrev StrT := String

/-- Alias for `Bool` (see `StrT`). -/
abbrev BoolT := Bool

/-- Alias for `Int` (see `StrT`). -/
abbrev IntT := Int

/-- Alias for `[]interface{}` = `List Value` (see `StrT`). -/
abbrev ListT := List Value

/-- Alias for `map[string]interface{}` = `List (String × Value)` (see `StrT`). -/
abbrev MapT := List (String × Value)

/-- Alias for the package-level `Get`: inside a `Config.*` declaration a bare
`Get` would resolve to `Config.Get`, so the method bodies use this alias. -/
def GetV : Value → String → GoRes Value := Get

/-- The `typeMismatch` helper (source `part_000:169-171`):
`Type mismatch: expected %s, got %T`. -/
def typeMismatchErr (expected : StrT) (got : Value) : Err :=
  .typeMismatch expected (goTypeName got)

/-- Go `Config.Bool` (source `part_000:34-48`). -/
def Config.Bool (root : Value) (path : StrT) : GoRes BoolT :=
  match Get root path with
  | .panicked m => .panicked m
  | .ret _ (some e) => .ret false (some e)
  | .ret n none =>
    match n with
    | .vBool b => .ret b none
    | .vStr s =>
      match goParseBool s with
      | some v => .ret v none
      | none => .ret false (some (typeMismatchErr "bool" n))
    | _ => .ret false (some (typeMismatchErr "bool" n))

/-- Go `Config.Float64` (source `part_000:51-67`). -/
def Config.Float64 (root : Value) (path : StrT) : GoRes Rat :=
  match Get root path with
  | .panicked m => .panicked m
  | .ret _ (some e) => .ret 0 (some e)
  | .ret n none =>
    match n with
    | .vFloat q => .ret q none
    | .vInt i => .ret (i : Rat) none
    | .vStr s =>
      match goParseFloat s with
      | some v => .ret v none
      | none => .ret 0 (some (typeMismatchErr "float64" n))
    | _ => .ret 0 (some (typeMismatchErr "float64" n))

/-- Go `Config.Int` (source `part_000:70-90`): on a `float64` node the value
is truncated with `int(n)` and accepted only if `fmt.Sprint(i) == fmt.Sprint(n)`
(round-trip text equality). -/
def Config.Int (root : Value) (path : StrT) : GoRes IntT :=
  match Get root path with
  | .panicked m => .panicked m
  | .ret _ (some e) => .ret 0 (some e)
  | .ret n none =>
    match n with
    | .vFloat q =>
      if goSprintInt (goTrunc q) = goSprintFloat q then .ret (goTrunc q) none
      else .ret 0 (some (typeMismatchErr "int" n))
    | .vInt i => .ret i none
    | .vStr s =>
      match goParseInt s with
      | some v => .ret v none
      | none => .ret 0 (some (typeMismatchErr "int" n))
    | _ => .ret 0 (some (typeMismatchErr "int" n))

/-- Go `Config.List` (source `part_000:93-102`); the zero value of a slice is
`nil`, modelled as `[]`. -/
def Config.List (root : Value) (path : StrT) : GoRes ListT :=
  match Get root path with
  | .panicked m => .panicked m
  | .ret _ (some e) => .ret [] (some e)
  | .ret n none =>
    match n with
    | .vList l => .ret l none
    | _ => .ret [] (some (typeMismatchErr "[]interface{}" n))

/-- Go `Config.Map` (source `part_000:105-114`); the zero value of a map is
`nil`, modelled as `[]`. -/
def Config.Map (root : Value) (path : StrT) : GoRes MapT :=
  match Get root path with
  | .panicked m => .panicked m
  | .ret _ (some e) => .ret [] (some e)
  | .ret n none =>
    match n with
    | .vMap m => .ret m none
    | _ => .ret [] (some (typeMismatchErr "map[string]interface{}" n))

/-- Go `Config.String` (source `part_000:117-129`): `bool`, `float64` and
`int` nodes are stringified with `fmt.Sprint`. -/
def Config.String (root : Value) (path : StrT) : GoRes StrT :=
  match Get root path with
  | .panicked m => .panicked m
  | .ret _ (some e) => .ret "" (some e)
  | .ret n none =>
    match n with
    | .vBool b => .ret (goSprintBool b) none
    | .vFloat q => .ret (goSprintFloat q) none
    | .vInt i => .ret (goSprintInt i) none
    | .vStr s => .ret s none
    | _ => .ret "" (some (typeMismatchErr "string" n))

/-- Go `Config.Get` (source `part_000:25-31`): a `*Config` is a stateless
wrapper around its root `Value`, so the derived sub-config is modelled by the
resolved sub-value itself.  (Declared after the other accessors so that their
bodies' references to `Get` resolve to the package-level function; its own
body must use the alias `GetV` because inside this declaration `Get` names
the declaration itself.) -/
def Config.Get (root : Value) (path : StrT) : GoRes Value :=
  GetV root path

mutual
/-- Go `normalizeValue` (source `part_000:186-226`): reconcile raw parser
output to the canonical shape.  `map[interface{}]interface{}` keys must be
strings; children are normalized recursively with failures wrapped; the
primitives `bool`, `float64`, `int`, `string` pass through unchanged (note:
a native `int` stays an `int`); anything else — including `nil` — is an
`Unsupported type` error. -/
def normalizeValue : Value → Except Err Value
  | .vMapI entries =>
    match normalizeEntriesI entries with
    | .error e => .error e
    | .ok node => .ok (.vMap node)
  | .vMap entries =>
    match normalizeEntriesS entries with
    | .error e => .error e
    | .ok node => .ok (.vMap node)
  | .vList items =>
    match normalizeItems items with
    | .error e => .error e
    | .ok node => .ok (.vList node)
  | .vBool b => .ok (.vBool b)
  | .vFloat q => .ok (.vFloat q)
  | .vInt n => .ok (.vInt n)
  | .vStr s => .ok (.vStr s)
  | .vNull => .error (.unsupportedType .vNull)

/-- The `map[interface{}]interface{}` loop of `normalizeValue`
(source `part_000:188-201`): a non-string key is `Unsupported map key`, a
child failure is reported as `Unsupported map value` wrapping the raw child. -/
def normalizeEntriesI : List (Value × Value) → Except Err (List (String × Value))
  | [] => .ok []
  | (k, v) :: rest =>
    match k with
    | .vStr key =>
      match normalizeValue v with
      | .error _ => .error (.unsupportedValue v)
      | .ok item =>
        match normalizeEntriesI rest with
        | .error e => .error e
        | .ok node => .ok ((key, item) :: node)
    | _ => .error (.unsupportedKey k)

/-- The `map[string]interface{}` loop of `normalizeValue`
(source `part_000:202-211`). -/
def normalizeEntriesS : List (String × Value) → Except Err (List (String × Value))
  | [] => .ok []
  | (key, v) :: rest =>
    match normalizeValue v with
    | .error _ => .error (.unsupportedValue v)
    | .ok item =>
      match normalizeEntriesS rest with
      | .error e => .error e
      | .ok node => .ok ((key, item) :: node)

/-- The `[]interface{}` loop of `normalizeValue` (source `part_000:212-221`):
a child failure is `Unsupported list item`. -/
def normalizeItems : List Value → Except Err (List Value)
  | [] => .ok []
  | v :: rest =>
    match normalizeValue v with
    | .error _ => .error (.unsupportedItem v)
    | .ok item =>
      match normalizeItems rest with
      | .error e => .error e
      | .ok node => .ok (item :: node)
end

/-- Go map assignment `m[k] = v` on the association-list model: replace the
existing binding or append a new one. -/
def mapInsert : List (String × Value) → String → Value → List (String × Value)
  | [], k, v => [(k, v)]
  | (k', v') :: rest, k, v =>
    if k' = k then (k, v) :: rest else (k', v') :: mapInsert rest k v

/-- Modelled from the spec: the descent of the Mutator (spec §4.4).  The
mutator `Config.Set` is called from `EnvConfig.Set` (src/envconfig.go:30-32)
but its own definition is not part of the provided sources, so it is modelled
from the specification: descend along the segments as the resolver does, but
a missing `Map` key is created holding an empty `Map`; on a `List` node a
segment that is not parseable as an in-range index is a failure (lists are
not extended); the final segment's slot is overwritten.  The spec fixes no
error payloads for the descent failures, so they are reported as `notFound`
carrying the remaining segments. -/
def setParts : Value → List String → Value → Except Err Value
  | _, [], v => .ok v
  | node, seg :: rest, v =>
    match node with
    | .vMap entries =>
      match rest with
      | [] => .ok (.vMap (mapInsert entries seg v))
      | _ :: _ =>
        let child :=
          match List.lookup seg entries with
          | some c => c
          | none => .vMap []
        match setParts child rest v with
        | .error e => .error e
        | .ok c => .ok (.vMap (mapInsert entries seg c))
    | .vList items =>
      match goParseInt seg with
      | some idx =>
        if 0 ≤ idx ∧ idx < (items.length : Int) then
          match rest with
          | [] => .ok (.vList (items.set idx.toNat v))
          | _ :: _ =>
            match setParts (items.getD idx.toNat .vNull) rest v with
            | .error e => .error e
            | .ok c => .ok (.vList (items.set idx.toNat c))
        else
          .error (.notFound (String.intercalate "." (seg :: rest)) ""
            (String.intercalate "." (seg :: rest)))
      | none =>
        .error (.notFound (String.intercalate "." (seg :: rest)) ""
          (String.intercalate "." (seg :: rest)))
    | _ =>
      .error (.notFound (String.intercalate "." (seg :: rest)) ""
        (String.intercalate "." (seg :: rest)))

/-- Modelled from the spec: `Config.Set` (spec §4.4, not in the provided
sources; see `setParts`).  The path is split and validated with the same
rules as the resolver (`InvalidPath` on malformed paths), the stored value
is normalized first (`UnsupportedValue` if it does not normalize), then the
descent writes it.  The Go method mutates `cfg.Root` in place; the model
returns the updated tree. -/
def Config.Set (root : Value) (path : StrT) (val : Value) : Except Err Value :=
  match goGetParts path with
  | .error e => .error e
  | .ok parts =>
    match normalizeValue val with
    | .error e => .error e
    | .ok v => setParts root parts v

/-- Go `EnvConfig.Get` (src/envconfig.go:25-27): plain delegation to the
base config — no environment prefix is consulted. -/
def EnvConfig.Get (_env : StrT) (root : Value) (path : StrT) : GoRes Value :=
  Config.Get root path

/-- Go `EnvConfig.Set` (src/envconfig.go:30-32): plain delegation to the
base config — no environment prefix is consulted. -/
def EnvConfig.Set (_env : StrT) (root : Value) (path : StrT) (val : Value) : Except Err Value :=
  Config.Set root path val

/-- Go `EnvConfig.Bool` (src/envconfig.go:35-41): try `"<env>." + path`
first; on any error retry the bare path.  A panic in the first attempt
unwinds before the error check. -/
def EnvConfig.Bool (env : StrT) (root : Value) (path : StrT) : GoRes BoolT :=
  match Config.Bool root (env ++ "." ++ path) with
  | .ret v none => .ret v none
  | .ret _ (some _) => Config.Bool root path
  | .panicked m => .panicked m

/-- Go `EnvConfig.Float64` (src/envconfig.go:58-64). -/
def EnvConfig.Float64 (env : StrT) (root : Value) (path : StrT) : GoRes Rat :=
  match Config.Float64 root (env ++ "." ++ path) with
  | .ret v none => .ret v none
  | .ret _ (some _) => Config.Float64 root path
  | .panicked m => .panicked m

/-- Go `EnvConfig.Int` (src/envconfig.go:81-87). -/
def EnvConfig.Int (env : StrT) (root : Value) (path : StrT) : GoRes IntT :=
  match Config.Int root (env ++ "." ++ path) with
  | .ret v none => .ret v none
  | .ret _ (some _) => Config.Int root path
  | .panicked m => .panicked m

/-- Go `EnvConfig.List` (src/envconfig.go:104-110). -/
def EnvConfig.List (env : StrT) (root : Value) (path : StrT) : GoRes ListT :=
  match Config.List root (env ++ "." ++ path) with
  | .ret v none => .ret v none
  | .ret _ (some _) => Config.List root path
  | .panicked m => .panicked m

/-- Go `EnvConfig.Map` (src/envconfig.go:127-133). -/
def EnvConfig.Map (env : StrT) (root : Value) (path : StrT) : GoRes MapT :=
  match Config.Map root (env ++ "." ++ path) with
  | .ret v none => .ret v none
  | .ret _ (some _) => Config.Map root path
  | .panicked m => .panicked m

/-- Go `EnvConfig.String` (src/envconfig.go:150-156). -/
def EnvConfig.String (env : StrT) (root : Value) (path : StrT) : GoRes StrT :=
  match Config.String root (env ++ "." ++ path) with
  | .ret v none => .ret v none
  | .ret _ (some _) => Config.String root path
  | .panicked m => .panicked m

lemma GetV_eq (root : Value) (path : String) : GetV root path = Get root path := rfl

lemma rangeCheck_pos (path : String) (l : List String) :
    ∀ (k : Nat) (parts : List String), k ≠ 0 →
      rangeCheck path l k parts =
        (if l.any (fun s => s = "") then .error (.invalidPath path) else .ok parts) := by
  induction l with
  | nil => intro k parts _; simp [rangeCheck]
  | cons v rest ih =>
    intro k parts hk
    rw [rangeCheck]
    by_cases hv : v = ""
    · rw [if_pos hv, if_neg hk]
      simp [hv]
    · rw [if_neg hv, ih (k + 1) parts (by omega)]
      simp [hv]

/-- Characterization of the split-and-validate loop of `Get`: an empty
segment after the first is `Invalid path`; otherwise a leading empty segment
is dropped and the rest is returned. -/
lemma goGetParts_eq (path : String) :
    goGetParts path =
      (if ((splitDots path).drop 1).any (fun s => s = "") then
        .error (.invalidPath path)
      else if (splitDots path).head? = some "" then .ok ((splitDots path).drop 1)
      else .ok (splitDots path)) := by
  rw [goGetParts]
  cases hs : splitDots path with
  | nil => simp [rangeCheck]
  | cons v rest =>
    rw [rangeCheck]
    by_cases hv : v = ""
    · rw [if_pos hv, if_pos rfl, rangeCheck_pos path rest 1 _ (by omega)]
      simp [hv]
    · rw [if_neg hv, rangeCheck_pos path rest 1 _ (by omega)]
      simp [hv]

lemma getFrom_nil (parts : List String) (pos : Nat) (cfg : Value) :
    getFrom parts pos cfg [] = .ret cfg none := rfl

lemma getFrom_cons_list (parts : List String) (pos : Nat) (l : List Value)
    (seg : String) (rest : List String) :
    getFrom parts pos (.vList l) (seg :: rest) =
      (match goParseInt seg with
       | some idx =>
         if idx < (l.length : Int) then
           if 0 ≤ idx then getFrom parts (pos + 1) (l.getD idx.toNat .vNull) rest
           else .panicked "runtime error: index out of range"
         else notFoundAt parts pos
       | none => notFoundAt parts pos) := rfl

lemma getFrom_cons_map (parts : List String) (pos : Nat)
    (entries : List (String × Value)) (seg : String) (rest : List String) :
    getFrom parts pos (.vMap entries) (seg :: rest) =
      (match List.lookup seg entries with
       | some v => getFrom parts (pos + 1) v rest
       | none => notFoundAt parts pos) := rfl

/-- Every outcome of the recursive descent is a successful return, the shared
`notFound` error return, or the index panic. -/
lemma getFrom_shape :
    ∀ (rest parts : List String) (pos : Nat) (cfg : Value),
      (∃ v, getFrom parts pos cfg rest = .ret v none) ∨
      (∃ i, getFrom parts pos cfg rest = notFoundAt parts i) ∨
      getFrom parts pos cfg rest = .panicked "runtime error: index out of range" := by
  intro rest
  induction rest with
  | nil => intro parts pos cfg; exact .inl ⟨cfg, rfl⟩
  | cons seg rest ih =>
    intro parts pos cfg
    cases cfg with
    | vList l =>
      rw [getFrom_cons_list]
      cases goParseInt seg with
      | none => exact .inr (.inl ⟨pos, rfl⟩)
      | some idx =>
        by_cases hub : idx < (l.length : Int)
        · by_cases hlb : 0 ≤ idx
          · simp only [if_pos hub, if_pos hlb]
            exact ih parts (pos + 1) (l.getD idx.toNat .vNull)
          · simp only [if_pos hub, if_neg hlb]
            exact .inr (.inr trivial)
        · simp only [if_neg hub]
          exact .inr (.inl ⟨pos, rfl⟩)
    | vMap entries =>
      rw [getFrom_cons_map]
      cases List.lookup seg entries with
      | none => exact .inr (.inl ⟨pos, rfl⟩)
      | some v => exact ih parts (pos + 1) v
    | vNull => exact .inr (.inl ⟨pos, rfl⟩)
    | vBool b => exact .inr (.inl ⟨pos, rfl⟩)
    | vFloat q => exact .inr (.inl ⟨pos, rfl⟩)
    | vInt i => exact .inr (.inl ⟨pos, rfl⟩)
    | vStr s => exact .inr (.inl ⟨pos, rfl⟩)
    | vMapI m => exact .inr (.inl ⟨pos, rfl⟩)

/-- A failed resolution always reports one of the two `Invalid path …` error
forms — the malformed-path form or the not-found form; never a type
mismatch. -/
lemma Get_err_shape (root : Value) (path : String) (v : Value) (e : Err) :
    Get root path = .ret v (some e) →
      (∃ p, e = .invalidPath p) ∨ (∃ a b c, e = .notFound a b c) := by
  intro h
  rw [Get_eval] at h
  cases hp : goGetParts path with
  | error e0 =>
    rw [hp] at h
    have h2 : GoRes.ret Value.vNull (some e0) = GoRes.ret v (some e) := h
    cases h2
    rw [goGetParts_eq] at hp
    by_cases hc : ((splitDots path).drop 1).any (fun s => s = "")
    · rw [if_pos hc] at hp
      cases hp
      exact .inl ⟨path, rfl⟩
    · rw [if_neg hc] at hp
      by_cases hh : (splitDots path).head? = some ""
      · rw [if_pos hh] at hp; cases hp
      · rw [if_neg hh] at hp; cases hp
  | ok parts =>
    rw [hp] at h
    have h2 : getFrom parts 0 root parts = .ret v (some e) := h
    rcases getFrom_shape parts parts 0 root with ⟨w, hw⟩ | ⟨i, hw⟩ | hw
    · rw [hw] at h2; cases h2
    · rw [hw, notFoundAt] at h2
      cases h2
      exact .inr ⟨_, _, _, rfl⟩
    · rw [hw] at h2; cases h2

/-- A successful descent does not depend on the `parts`/`pos` bookkeeping
(those only shape error payloads). -/
lemma getFrom_ok_params :
    ∀ (rest : List String) (cfg : Value) (parts : List String) (pos : Nat)
      (parts2 : List String) (pos2 : Nat) (v : Value),
      getFrom parts pos cfg rest = .ret v none →
      getFrom parts2 pos2 cfg rest = .ret v none := by
  intro rest
  induction rest with
  | nil =>
    intro cfg parts pos parts2 pos2 v h
    have h2 : GoRes.ret cfg none = GoRes.ret v none := h
    cases h2
    rfl
  | cons seg rest ih =>
    intro cfg parts pos parts2 pos2 v h
    cases cfg with
    | vList l =>
      rw [getFrom_cons_list] at h ⊢
      cases hpi : goParseInt seg with
      | none => rw [hpi] at h; simp [notFoundAt] at h
      | some idx =>
        rw [hpi] at h
        by_cases hub : idx < (l.length : Int)
        · by_cases hlb : 0 ≤ idx
          · simp only [if_pos hub, if_pos hlb] at h ⊢
            exact ih _ parts (pos + 1) parts2 (pos2 + 1) v h
          · simp only [if_pos hub, if_neg hlb] at h
            cases h
        · simp only [if_neg hub] at h
          simp [notFoundAt] at h
    | vMap entries =>
      rw [getFrom_cons_map] at h ⊢
      cases hlk : List.lookup seg entries with
      | none => rw [hlk] at h; simp [notFoundAt] at h
      | some w =>
        rw [hlk] at h
        exact ih _ parts (pos + 1) parts2 (pos2 + 1) v h
    | vNull => rw [show getFrom parts pos .vNull (seg :: rest) = notFoundAt parts pos from rfl, notFoundAt] at h; cases h
    | vBool b => rw [show getFrom parts pos (.vBool b) (seg :: rest) = notFoundAt parts pos from rfl, notFoundAt] at h; cases h
    | vFloat q => rw [show getFrom parts pos (.vFloat q) (seg :: rest) = notFoundAt parts pos from rfl, notFoundAt] at h; cases h
    | vInt i => rw [show getFrom parts pos (.vInt i) (seg :: rest) = notFoundAt parts pos from rfl, notFoundAt] at h; cases h
    | vStr s => rw [show getFrom parts pos (.vStr s) (seg :: rest) = notFoundAt parts pos from rfl, notFoundAt] at h; cases h
    | vMapI m => rw [show getFrom parts pos (.vMapI m) (seg :: rest) = notFoundAt parts pos from rfl, notFoundAt] at h; cases h

/-- Successful resolution of a concatenated segment list factors through the
intermediate node, and conversely. -/
lemma getFrom_append :
    ∀ (l1 : List String) (cfg : Value) (parts : List String) (pos : Nat)
      (l2 : List String) (v : Value),
      getFrom parts pos cfg (l1 ++ l2) = .ret v none ↔
        ∃ w, getFrom parts pos cfg l1 = .ret w none ∧
          getFrom l2 0 w l2 = .ret v none := by
  intro l1
  induction l1 with
  | nil =>
    intro cfg parts pos l2 v
    constructor
    · intro h
      exact ⟨cfg, rfl, getFrom_ok_params l2 cfg parts pos l2 0 v h⟩
    · rintro ⟨w, hw, h2⟩
      have hw2 : GoRes.ret cfg none = GoRes.ret w none := hw
      cases hw2
      exact getFrom_ok_params l2 cfg l2 0 parts pos v h2
  | cons seg l1 ih =>
    intro cfg parts pos l2 v
    cases cfg with
    | vList l =>
      rw [List.cons_append, getFrom_cons_list, getFrom_cons_list]
      cases goParseInt seg with
      | none =>
        rw [notFoundAt]
        constructor
        · intro h; cases h
        · rintro ⟨w, hw, -⟩; cases hw
      | some idx =>
        by_cases hub : idx < (l.length : Int)
        · by_cases hlb : 0 ≤ idx
          · simp only [if_pos hub, if_pos hlb]
            exact ih _ parts (pos + 1) l2 v
          · simp only [if_pos hub, if_neg hlb]
            constructor
            · intro h; cases h
            · rintro ⟨w, hw, -⟩; cases hw
        · simp only [if_neg hub]
          rw [notFoundAt]
          constructor
          · intro h; cases h
          · rintro ⟨w, hw, -⟩; cases hw
    | vMap entries =>
      rw [List.cons_append, getFrom_cons_map, getFrom_cons_map]
      cases List.lookup seg entries with
      | none =>
        rw [notFoundAt]
        constructor
        · intro h; cases h
        · rintro ⟨w, hw, -⟩; cases hw
      | some w0 => exact ih _ parts (pos + 1) l2 v
    | vNull =>
      constructor
      · intro h
        have h2 : notFoundAt parts pos = GoRes.ret v none := h
        rw [notFoundAt] at h2; cases h2
      · rintro ⟨w, hw, -⟩
        have h2 : notFoundAt parts pos = GoRes.ret w none := hw
        rw [notFoundAt] at h2; cases h2
    | vBool b =>
      constructor
      · intro h
        have h2 : notFoundAt parts pos = GoRes.ret v none := h
        rw [notFoundAt] at h2; cases h2
      · rintro ⟨w, hw, -⟩
        have h2 : notFoundAt parts pos = GoRes.ret w none := hw
        rw [notFoundAt] at h2; cases h2
    | vFloat q =>
      constructor
      · intro h
        have h2 : notFoundAt parts pos = GoRes.ret v none := h
        rw [notFoundAt] at h2; cases h2
      · rintro ⟨w, hw, -⟩
        have h2 : notFoundAt parts pos = GoRes.ret w none := hw
        rw [notFoundAt] at h2; cases h2
    | vInt i =>
      constructor
      · intro h
        have h2 : notFoundAt parts pos = GoRes.ret v none := h
        rw [notFoundAt] at h2; cases h2
      · rintro ⟨w, hw, -⟩
        have h2 : notFoundAt parts pos = GoRes.ret w none := hw
        rw [notFoundAt] at h2; cases h2
    | vStr s =>
      constructor
      · intro h
        have h2 : notFoundAt parts pos = GoRes.ret v none := h
        rw [notFoundAt] at h2; cases h2
      · rintro ⟨w, hw, -⟩
        have h2 : notFoundAt parts pos = GoRes.ret w none := hw
        rw [notFoundAt] at h2; cases h2
    | vMapI m =>
      constructor
      · intro h
        have h2 : notFoundAt parts pos = GoRes.ret v none := h
        rw [notFoundAt] at h2; cases h2
      · rintro ⟨w, hw, -⟩
        have h2 : notFoundAt parts pos = GoRes.ret w none := hw
        rw [notFoundAt] at h2; cases h2

/-- The value 42.5 as an explicit reduced fraction 85/2 (the float literal
notation does not evaluate in the kernel). -/
def float42p5 : Rat := ⟨85, 2, by decide, by decide⟩

/-- Is the node a native Go `int` (as opposed to a `float64`)? -/
def isNativeInt : Value → Bool
  | .vInt _ => true
  | _ => false

/-- The example root `{"dev": {"host": "h1"}, "host": "h2"}` of the
environment-fallback test. -/
def devRoot : Value :=
  .vMap [("dev", .vMap [("host", .vStr "h1")]), ("host", .vStr "h2")]

lemma boolAcc_err (root : Value) (path : String) (v : Value) (e : Err)
    (h : Get root path = .ret v (some e)) :
    Config.Bool root path = .ret false (some e) := by
  unfold Config.Bool; rw [h]

lemma float64Acc_err (root : Value) (path : String) (v : Value) (e : Err)
    (h : Get root path = .ret v (some e)) :
    Config.Float64 root path = .ret 0 (some e) := by
  unfold Config.Float64; rw [h]

lemma intAcc_err (root : Value) (path : String) (v : Value) (e : Err)
    (h : Get root path = .ret v (some e)) :
    Config.Int root path = .ret 0 (some e) := by
  unfold Config.Int; rw [h]

lemma listAcc_err (root : Value) (path : String) (v : Value) (e : Err)
    (h : Get root path = .ret v (some e)) :
    Config.List root path = .ret [] (some e) := by
  unfold Config.List; rw [h]

lemma mapAcc_err (root : Value) (path : String) (v : Value) (e : Err)
    (h : Get root path = .ret v (some e)) :
    Config.Map root path = .ret [] (some e) := by
  unfold Config.Map; rw [h]

lemma strAcc_err (root : Value) (path : String) (v : Value) (e : Err)
    (h : Get root path = .ret v (some e)) :
    Config.String root path = .ret "" (some e) := by
  unfold Config.String; rw [h]

lemma boolAcc_tm (root : Value) (path : String) (b : Bool) (t g : String)
    (h : Config.Bool root path = .ret b (some (.typeMismatch t g))) :
    ∃ w, Get root path = .ret w none := by
  unfold Config.Bool at h
  cases hg : Get root path with
  | panicked m => rw [hg] at h; cases h
  | ret w oe =>
    cases oe with
    | none => exact ⟨w, rfl⟩
    | some e0 =>
      rw [hg] at h
      have h2 : GoRes.ret false (some e0) = GoRes.ret b (some (Err.typeMismatch t g)) := h
      cases h2
      rcases Get_err_shape root path w _ hg with ⟨p, hp⟩ | ⟨a1, a2, a3, hp⟩ <;> cases hp

lemma float64Acc_tm (root : Value) (path : String) (x : Rat) (t g : String)
    (h : Config.Float64 root path = .ret x (some (.typeMismatch t g))) :
    ∃ w, Get root path = .ret w none := by
  unfold Config.Float64 at h
  cases hg : Get root path with
  | panicked m => rw [hg] at h; cases h
  | ret w oe =>
    cases oe with
    | none => exact ⟨w, rfl⟩
    | some e0 =>
      rw [hg] at h
      have h2 : GoRes.ret (0 : Rat) (some e0) = GoRes.ret x (some (Err.typeMismatch t g)) := h
      cases h2
      rcases Get_err_shape root path w _ hg with ⟨p, hp⟩ | ⟨a1, a2, a3, hp⟩ <;> cases hp

lemma intAcc_tm (root : Value) (path : String) (x : Int) (t g : String)
    (h : Config.Int root path = .ret x (some (.typeMismatch t g))) :
    ∃ w, Get root path = .ret w none := by
  unfold Config.Int at h
  cases hg : Get root path with
  | panicked m => rw [hg] at h; cases h
  | ret w oe =>
    cases oe with
    | none => exact ⟨w, rfl⟩
    | some e0 =>
      rw [hg] at h
      have h2 : GoRes.ret (0 : Int) (some e0) = GoRes.ret x (some (Err.typeMismatch t g)) := h
      cases h2
      rcases Get_err_shape root path w _ hg with ⟨p, hp⟩ | ⟨a1, a2, a3, hp⟩ <;> cases hp

lemma listAcc_tm (root : Value) (path : String) (x : ListT) (t g : String)
    (h : Config.List root path = .ret x (some (.typeMismatch t g))) :
    ∃ w, Get root path = .ret w none := by
  unfold Config.List at h
  cases hg : Get root path with
  | panicked m => rw [hg] at h; cases h
  | ret w oe =>
    cases oe with
    | none => exact ⟨w, rfl⟩
    | some e0 =>
      rw [hg] at h
      have h2 : GoRes.ret ([] : ListT) (some e0) = GoRes.ret x (some (Err.typeMismatch t g)) := h
      cases h2
      rcases Get_err_shape root path w _ hg with ⟨p, hp⟩ | ⟨a1, a2, a3, hp⟩ <;> cases hp

lemma mapAcc_tm (root : Value) (path : String) (x : MapT) (t g : String)
    (h : Config.Map root path = .ret x (some (.typeMismatch t g))) :
    ∃ w, Get root path = .ret w none := by
  unfold Config.Map at h
  cases hg : Get root path with
  | panicked m => rw [hg] at h; cases h
  | ret w oe =>
    cases oe with
    | none => exact ⟨w, rfl⟩
    | some e0 =>
      rw [hg] at h
      have h2 : GoRes.ret ([] : MapT) (some e0) = GoRes.ret x (some (Err.typeMismatch t g)) := h
      cases h2
      rcases Get_err_shape root path w _ hg with ⟨p, hp⟩ | ⟨a1, a2, a3, hp⟩ <;> cases hp

lemma strAcc_tm (root : Value) (path : String) (x : String) (t g : String)
    (h : Config.String root path = .ret x (some (.typeMismatch t g))) :
    ∃ w, Get root path = .ret w none := by
  unfold Config.String at h
  cases hg : Get root path with
  | panicked m => rw [hg] at h; cases h
  | ret w oe =>
    cases oe with
    | none => exact ⟨w, rfl⟩
    | some e0 =>
      rw [hg] at h
      have h2 : GoRes.ret "" (some e0) = GoRes.ret x (some (Err.typeMismatch t g)) := h
      cases h2
      rcases Get_err_shape root path w _ hg with ⟨p, hp⟩ | ⟨a1, a2, a3, hp⟩ <;> cases hp

/-- C1: for the root tree `{"a": {"b": [10, 20, 30]}}`, resolving `"a.b.1"`
returns `20`, and resolving `"a.b.5"` fails with the not-found error whose
full path is `"a.b.5"`, whose consumed-segments prefix is `"a.b"` and whose
unconsumed suffix is `"5"`. -/
theorem c1_resolution_correctness :
    Get (.vMap [("a", .vMap [("b", .vList [.vInt 10, .vInt 20, .vInt 30])])]) "a.b.1"
      = .ret (.vInt 20) none ∧
    Get (.vMap [("a", .vMap [("b", .vList [.vInt 10, .vInt 20, .vInt 30])])]) "a.b.5"
      = .ret .vNull (some (.notFound "a.b.5" "a.b" "5")) := by
  constructor
  · rw [Get_eval]; rfl
  · rw [Get_eval]; rfl

/-- C2: the path is split on `.`; an empty segment anywhere after the first
makes resolution fail with the invalid-path error; otherwise a single leading
empty segment is dropped and resolution proceeds on the remaining segments;
with no empty segments resolution proceeds on the full split; the empty path
`""` resolves to the root itself. -/
theorem c2_path_splitting (root : Value) (path : String) :
    (((splitDots path).drop 1).any (fun s => s = "") = true →
      Get root path = .ret .vNull (some (.invalidPath path))) ∧
    (((splitDots path).drop 1).any (fun s => s = "") = false →
      (splitDots path).head? = some "" →
      Get root path = getAt root ((splitDots path).drop 1) 0) ∧
    (((splitDots path).drop 1).any (fun s => s = "") = false →
      (splitDots path).head? ≠ some "" →
      Get root path = getAt root (splitDots path) 0) ∧
    Get root "" = .ret root none := by
  refine ⟨?_, ?_, ?_, ?_⟩
  · intro hc
    rw [Get, goGetParts_eq, if_pos hc]
  · intro hc hh
    rw [Get, goGetParts_eq, if_neg (by rw [hc]; decide), if_pos hh]
  · intro hc hh
    rw [Get, goGetParts_eq, if_neg (by rw [hc]; decide), if_neg hh]
  · rw [Get_eval]; rfl

/-- Witness for C2 at concrete inputs: `"a..b"` is an invalid path, `".a"`
drops the leading empty segment, `"a"` is resolved as split, and `""`
returns the root. -/
theorem c2_path_splitting_witness :
    Get (.vInt 7) "a..b" = .ret .vNull (some (.invalidPath "a..b")) ∧
    Get (.vMap [("a", .vInt 1)]) ".a" = getAt (.vMap [("a", .vInt 1)]) ["a"] 0 ∧
    Get (.vMap [("a", .vInt 1)]) "a" = getAt (.vMap [("a", .vInt 1)]) ["a"] 0 ∧
    Get (.vInt 7) "" = .ret (.vInt 7) none :=
  ⟨(c2_path_splitting (.vInt 7) "a..b").1 (by rfl),
   (c2_path_splitting (.vMap [("a", .vInt 1)]) ".a").2.1 (by rfl) (by rfl),
   (c2_path_splitting (.vMap [("a", .vInt 1)]) "a").2.2.1 (by rfl) (by decide),
   (c2_path_splitting (.vInt 7) "x").2.2.2⟩

/-- C3 (code bug): on a list node, a segment parsing to a negative integer
passes the only bounds check `int(idx) < len(cfg)` and the slice indexing
`cfg[idx]` aborts with a runtime index-out-of-range panic instead of
returning an error value: `"-1"` parses successfully to `-1`, `-1 < 3`, and
resolution of `"-1"` against the list `[10, 20, 30]` panics. -/
theorem c3_negative_index_panics :
    goParseInt "-1" = some (-1) ∧
    ((-1 : Int) < ([Value.vInt 10, .vInt 20, .vInt 30].length : Int)) ∧
    Get (.vList [.vInt 10, .vInt 20, .vInt 30]) "-1" =
      .panicked "runtime error: index out of range" := by
  refine ⟨by rfl, by decide, ?_⟩
  rw [Get_eval]; rfl

/-- C4: `Int` on a node holding the float `42.0` returns `42`; on `42.5` it
fails with a type mismatch; in general, on a float-valued node it succeeds
(returning the truncation) exactly when the text rendering of the truncated
value equals the text rendering of the original float, and otherwise fails
with the `int`/`float64` type mismatch. -/
theorem c4_int_coercion :
    Config.Int (.vFloat 42) "" = .ret 42 none ∧
    Config.Int (.vFloat float42p5) "" = .ret 0 (some (.typeMismatch "int" "float64")) ∧
    ∀ (root : Value) (path : String) (q : Rat),
      Get root path = .ret (.vFloat q) none →
        (goSprintInt (goTrunc q) = goSprintFloat q →
          Config.Int root path = .ret (goTrunc q) none) ∧
        (goSprintInt (goTrunc q) ≠ goSprintFloat q →
          Config.Int root path = .ret 0 (some (.typeMismatch "int" "float64"))) := by
  refine ⟨?_, ?_, ?_⟩
  · have hG : Get (.vFloat 42) "" = .ret (.vFloat 42) none := by rw [Get_eval]; rfl
    unfold Config.Int
    rw [hG]
    rfl
  · have hG : Get (.vFloat float42p5) "" = .ret (.vFloat float42p5) none := by
      rw [Get_eval]; rfl
    unfold Config.Int
    rw [hG]
    rfl
  · intro root path q hG
    constructor
    · intro hr
      unfold Config.Int
      rw [hG]
      simp only [if_pos hr]
    · intro hr
      unfold Config.Int
      rw [hG]
      simp only [if_neg hr]
      rfl

/-- Witness for C4's general clause at the concrete float `42`: resolution of
the empty path on a `42.0` node succeeds and the renderings agree, so `Int`
returns the truncation. -/
theorem c4_int_coercion_witness :
    Config.Int (.vFloat 42) "" = .ret (goTrunc 42) none :=
  (c4_int_coercion.2.2 (.vFloat 42) "" 42 (by rw [Get_eval]; rfl)).1 (by decide)

/-- C5 counterexample: the normalizer passes a native integer through
unchanged — `normalizeValue` maps the raw `int` node `5` to the canonical
tree `int` node `5`, which is a native-integer numeric leaf and not the
float node `5.0`, contradicting the claim that every numeric leaf of a
normalized tree is a `float64`. -/
theorem c5_counterexample :
    normalizeValue (.vInt 5) = .ok (.vInt 5) ∧
    isNativeInt (.vInt 5) = true ∧
    Value.vInt 5 ≠ Value.vFloat 5 := by
  refine ⟨by simp [normalizeValue], rfl, ?_⟩
  intro h
  exact Value.noConfusion h

/-- C5 amended: the normalizer performs no numeric unification — primitive
numeric values pass through unchanged, so a raw `float64` stays a `float64`
and a raw native `int` stays a native `int` (normalized trees can therefore
hold native-integer leaves, e.g. from YAML input). -/
theorem c5_numeric_passthrough (n : Int) (q : Rat) :
    normalizeValue (.vInt n) = .ok (.vInt n) ∧
    normalizeValue (.vFloat q) = .ok (.vFloat q) := by
  constructor <;> simp [normalizeValue]

/-- C6: whenever path resolution fails with an error, every typed accessor
returns that error unchanged together with the zero value of its result type
(`false`, `0`, `0`, nil slice, nil map, `""`), and the resolution error is
never a type mismatch; conversely, an accessor returns a type-mismatch error
only when resolution succeeded (the resolved node then failed coercion). -/
theorem c6_error_provenance (root : Value) (path : String) :
    (∀ v e, Get root path = .ret v (some e) →
      Config.Bool root path = .ret false (some e) ∧
      Config.Float64 root path = .ret 0 (some e) ∧
      Config.Int root path = .ret 0 (some e) ∧
      Config.List root path = .ret [] (some e) ∧
      Config.Map root path = .ret [] (some e) ∧
      Config.String root path = .ret "" (some e) ∧
      ∀ t g, e ≠ .typeMismatch t g) ∧
    (∀ b t g, Config.Bool root path = .ret b (some (.typeMismatch t g)) →
      ∃ w, Get root path = .ret w none) ∧
    (∀ x t g, Config.Float64 root path = .ret x (some (.typeMismatch t g)) →
      ∃ w, Get root path = .ret w none) ∧
    (∀ x t g, Config.Int root path = .ret x (some (.typeMismatch t g)) →
      ∃ w, Get root path = .ret w none) ∧
    (∀ x t g, Config.List root path = .ret x (some (.typeMismatch t g)) →
      ∃ w, Get root path = .ret w none) ∧
    (∀ x t g, Config.Map root path = .ret x (some (.typeMismatch t g)) →
      ∃ w, Get root path = .ret w none) ∧
    (∀ x t g, Config.String root path = .ret x (some (.typeMismatch t g)) →
      ∃ w, Get root path = .ret w none) := by
  refine ⟨?_, ?_, ?_, ?_, ?_, ?_, ?_⟩
  · intro v e hG
    refine ⟨boolAcc_err root path v e hG, float64Acc_err root path v e hG,
      intAcc_err root path v e hG, listAcc_err root path v e hG,
      mapAcc_err root path v e hG, strAcc_err root path v e hG, ?_⟩
    intro t g htm
    rcases Get_err_shape root path v e hG with ⟨p, hp⟩ | ⟨a1, a2, a3, hp⟩ <;>
      rw [htm] at hp <;> cases hp
  · intro b t g h; exact boolAcc_tm root path b t g h
  · intro x t g h; exact float64Acc_tm root path x t g h
  · intro x t g h; exact intAcc_tm root path x t g h
  · intro x t g h; exact listAcc_tm root path x t g h
  · intro x t g h; exact mapAcc_tm root path x t g h
  · intro x t g h; exact strAcc_tm root path x t g h

/-- Witness for C6 at a concrete failed resolution (`"missing"` is not a key
of `{"a": 1}`) and a concrete type mismatch (`Bool` on the int node `1`). -/
theorem c6_error_provenance_witness :
    Config.Bool (.vMap [("a", .vInt 1)]) "missing" =
      .ret false (some (.notFound "missing" "" "missing")) ∧
    (∃ w, Get (.vMap [("a", .vInt 1)]) "a" = .ret w none) := by
  constructor
  · exact ((c6_error_provenance (.vMap [("a", .vInt 1)]) "missing").1 .vNull
      (.notFound "missing" "" "missing") (by rw [Get_eval]; rfl)).1
  · exact (c6_error_provenance (.vMap [("a", .vInt 1)]) "a").2.1 false "bool" "int"
      (by
        have hG : Get (.vMap [("a", .vInt 1)]) "a" = .ret (.vInt 1) none := by
          rw [Get_eval]; rfl
        unfold Config.Bool
        rw [hG]
        rfl)

/-- C7: each typed accessor of the environment layer first evaluates the base
accessor on the prefixed path `env ++ "." ++ path` and returns that result if
it succeeds; only if it fails does it evaluate and return the base accessor
on the bare path.  Concretely, on `{"dev": {"host": "h1"}, "host": "h2"}`,
`String("host")` yields `"h1"` with env `"dev"` and `"h2"` with env
`"prod"`. -/
theorem c7_env_fallback_order (env : String) (root : Value) (path : String) :
    ((∀ v, Config.Bool root (env ++ "." ++ path) = .ret v none →
        EnvConfig.Bool env root path = .ret v none) ∧
     (∀ v e, Config.Bool root (env ++ "." ++ path) = .ret v (some e) →
        EnvConfig.Bool env root path = Config.Bool root path)) ∧
    ((∀ v, Config.Float64 root (env ++ "." ++ path) = .ret v none →
        EnvConfig.Float64 env root path = .ret v none) ∧
     (∀ v e, Config.Float64 root (env ++ "." ++ path) = .ret v (some e) →
        EnvConfig.Float64 env root path = Config.Float64 root path)) ∧
    ((∀ v, Config.Int root (env ++ "." ++ path) = .ret v none →
        EnvConfig.Int env root path = .ret v none) ∧
     (∀ v e, Config.Int root (env ++ "." ++ path) = .ret v (some e) →
        EnvConfig.Int env root path = Config.Int root path)) ∧
    ((∀ v, Config.List root (env ++ "." ++ path) = .ret v none →
        EnvConfig.List env root path = .ret v none) ∧
     (∀ v e, Config.List root (env ++ "." ++ path) = .ret v (some e) →
        EnvConfig.List env root path = Config.List root path)) ∧
    ((∀ v, Config.Map root (env ++ "." ++ path) = .ret v none →
        EnvConfig.Map env root path = .ret v none) ∧
     (∀ v e, Config.Map root (env ++ "." ++ path) = .ret v (some e) →
        EnvConfig.Map env root path = Config.Map root path)) ∧
    ((∀ v, Config.String root (env ++ "." ++ path) = .ret v none →
        EnvConfig.String env root path = .ret v none) ∧
     (∀ v e, Config.String root (env ++ "." ++ path) = .ret v (some e) →
        EnvConfig.String env root path = Config.String root path)) ∧
    EnvConfig.String "dev" devRoot "host" = .ret "h1" none ∧
    EnvConfig.String "prod" devRoot "host" = .ret "h2" none := by
  refine ⟨⟨?_, ?_⟩, ⟨?_, ?_⟩, ⟨?_, ?_⟩, ⟨?_, ?_⟩, ⟨?_, ?_⟩, ⟨?_, ?_⟩, ?_, ?_⟩
  · intro v h; unfold EnvConfig.Bool; rw [h]
  · intro v e h; unfold EnvConfig.Bool; rw [h]
  · intro v h; unfold EnvConfig.Float64; rw [h]
  · intro v e h; unfold EnvConfig.Float64; rw [h]
  · intro v h; unfold EnvConfig.Int; rw [h]
  · intro v e h; unfold EnvConfig.Int; rw [h]
  · intro v h; unfold EnvConfig.List; rw [h]
  · intro v e h; unfold EnvConfig.List; rw [h]
  · intro v h; unfold EnvConfig.Map; rw [h]
  · intro v e h; unfold EnvConfig.Map; rw [h]
  · intro v h; unfold EnvConfig.String; rw [h]
  · intro v e h; unfold EnvConfig.String; rw [h]
  · have hG : Get devRoot ("dev" ++ "." ++ "host") = .ret (.vStr "h1") none := by
      rw [Get_eval]; rfl
    unfold EnvConfig.String Config.String
    rw [hG]
  · have hG1 : Get devRoot ("prod" ++ "." ++ "host") =
        .ret .vNull (some (.notFound "prod.host" "" "prod.host")) := by
      rw [Get_eval]; rfl
    have hG2 : Get devRoot "host" = .ret (.vStr "h2") none := by
      rw [Get_eval]; rfl
    unfold EnvConfig.String Config.String
    rw [hG1, hG2]

/-- Witness for C7 at the concrete example root: the prefixed lookup
`"dev.host"` succeeds, so the `"dev"` environment returns its value. -/
theorem c7_env_fallback_order_witness :
    EnvConfig.String "dev" devRoot "host" = .ret "h1" none :=
  ((c7_env_fallback_order "dev" devRoot "host").2.2.2.2.2.1).1 "h1"
    (by
      have hG : Get devRoot ("dev" ++ "." ++ "host") = .ret (.vStr "h1") none := by
        rw [Get_eval]; rfl
      unfold Config.String
      rw [hG])

/-- C8 (mutator modelled from the spec): starting from the empty map `{}`,
`set(root, "x.y.z", 5)` succeeds — creating the missing intermediate maps —
and in the resulting tree `"x.y.z"` resolves to `5` and `"x.y"` resolves to
the map holding exactly the single entry `{"z": 5}`. -/
theorem c8_set_creates_structure :
    Config.Set (.vMap []) "x.y.z" (.vInt 5) =
      .ok (.vMap [("x", .vMap [("y", .vMap [("z", .vInt 5)])])]) ∧
    Get (.vMap [("x", .vMap [("y", .vMap [("z", .vInt 5)])])]) "x.y.z" =
      .ret (.vInt 5) none ∧
    Get (.vMap [("x", .vMap [("y", .vMap [("z", .vInt 5)])])]) "x.y" =
      .ret (.vMap [("z", .vInt 5)]) none := by
  refine ⟨?_, ?_, ?_⟩
  · have hn : normalizeValue (.vInt 5) = .ok (.vInt 5) := by simp [normalizeValue]
    unfold Config.Set
    rw [show goGetParts "x.y.z" = Except.ok ["x", "y", "z"] from rfl, hn]
    rfl
  · rw [Get_eval]; rfl
  · rw [Get_eval]; rfl

/-- C9: resolving a valid dotted path in two stages through the intermediate
sub-configuration gives the same node as resolving the joined path at once:
if the joined path splits into the two stages' segment lists, the one-step
resolution succeeds with `v` exactly when the first stage succeeds with some
`w` and the second stage on `w` succeeds with `v`. -/
theorem c9_get_composition (root : Value) (l1 l2 : List String)
    (pa pb pab : String) (h1 : goGetParts pa = .ok l1)
    (h2 : goGetParts pb = .ok l2) (h12 : goGetParts pab = .ok (l1 ++ l2))
    (v : Value) :
    Config.Get root pab = .ret v none ↔
      ∃ w, Config.Get root pa = .ret w none ∧ Config.Get w pb = .ret v none := by
  show Get root pab = .ret v none ↔
    ∃ w, Get root pa = .ret w none ∧ Get w pb = .ret v none
  simp only [Get_eval, h12, h1, h2]
  constructor
  · intro h
    have h0 : getFrom (l1 ++ l2) 0 root (l1 ++ l2) = .ret v none := h
    rcases (getFrom_append l1 root (l1 ++ l2) 0 l2 v).mp h0 with ⟨w, hw1, hw2⟩
    exact ⟨w, getFrom_ok_params l1 root (l1 ++ l2) 0 l1 0 w hw1, hw2⟩
  · rintro ⟨w, hw1, hw2⟩
    have hw1a : getFrom l1 0 root l1 = .ret w none := hw1
    have hw2a : getFrom l2 0 w l2 = .ret v none := hw2
    exact (getFrom_append l1 root (l1 ++ l2) 0 l2 v).mpr
      ⟨w, getFrom_ok_params l1 root l1 0 (l1 ++ l2) 0 w hw1a, hw2a⟩

/-- Witness for C9 at the root `{"a": {"b": 7}}` and the split of `"a.b"`
into `"a"` and `"b"`. -/
theorem c9_get_composition_witness :
    Config.Get (.vMap [("a", .vMap [("b", .vInt 7)])]) "a.b" = .ret (.vInt 7) none ↔
      ∃ w, Config.Get (.vMap [("a", .vMap [("b", .vInt 7)])]) "a" = .ret w none ∧
        Config.Get w "b" = .ret (.vInt 7) none :=
  c9_get_composition (.vMap [("a", .vMap [("b", .vInt 7)])]) ["a"] ["b"]
    "a" "b" "a.b" rfl rfl rfl (.vInt 7)

/-- C10: the environment layer's `Get` and `Set` apply no environment-prefix
fallback: they delegate to the base operations unchanged, so their results
are independent of the environment label — while the typed accessors do
consult the prefix, as the concrete contrast shows: on
`{"dev": {"host": "h1"}, "host": "h2"}` with env `"dev"`, `Get("host")`
returns the bare `"h2"` node whereas the accessor `String("host")` returns
the prefixed `"h1"`. -/
theorem c10_env_get_set_no_prefix (env env2 : String) (root : Value)
    (path : String) (val : Value) :
    EnvConfig.Get env root path = Config.Get root path ∧
    EnvConfig.Set env root path val = Config.Set root path val ∧
    EnvConfig.Get env root path = EnvConfig.Get env2 root path ∧
    EnvConfig.Set env root path val = EnvConfig.Set env2 root path val ∧
    EnvConfig.Get "dev" devRoot "host" = .ret (.vStr "h2") none ∧
    EnvConfig.String "dev" devRoot "host" = .ret "h1" none := by
  refine ⟨rfl, rfl, rfl, rfl, ?_, ?_⟩
  · show Get devRoot "host" = .ret (.vStr "h2") none
    rw [Get_eval]; rfl
  · have hG : Get devRoot ("dev" ++ "." ++ "host") = .ret (.vStr "h1") none := by
      rw [Get_eval]; rfl
    unfold EnvConfig.String Config.String
    rw [hG]
